import Mathlib

namespace OpenTA

/-! # Definitions: the shallow embedding of the source -/

/-!
Verification of the streaming research-assistant backend
(`app/utils/streaming.py`, `app/services/planner.py`, `app/api/routes/chat.py`).

Each Python function the claims touch is shallowly embedded as an executable
Lean definition; stateful orchestration is modelled as a writer/except monad
producing the ordered list of SSE events plus the list of persistence calls.
-/

/-- Exception message carried by a raised Python exception. -/
abbrev Err := String

/-- `RetrievedPaper` as produced by the retriever (`core/models.py`). -/
structure RetrievedPaper where
  id : String
  title : String
  authors : List String
  abstract : String
  year : Int
  deriving Repr, DecidableEq

/-- `CitedPaper` (`core/models.py`): a retrieved paper plus its 1-based
inline citation number. -/
structure CitedPaper where
  id : String
  title : String
  authors : List String
  abstract : String
  year : Int
  citation_number : Nat
  deriving Repr, DecidableEq

/-- `PlanStep` (`services/planner.py`). -/
structure PlanStep where
  id : Nat
  title : String
  description : String
  needs_search : Bool
  deriving Repr, DecidableEq

/-! ## Citation auditor (`streaming.py`, `_audit_citations`) -/

/-- Value of a digit string, as computed by Python `int`. -/
def natOfDigits (ds : List Char) : Nat :=
  ds.foldl (fun a c => a * 10 + (c.toNat - 48)) 0

/-- One-pass scanner equivalent to `re.findall(r'\[(\d+)\]', answer)`
(leftmost, non-overlapping matches, in order).  The second argument is the
scanner state: `none` outside a candidate match, `some acc` after having read
`'['` followed by the digits `acc`.  When a candidate dies at a non-digit,
non-`']'` character the regex engine would retry at every position after the
opening `'['`; since the skipped characters are all digits, the next possible
match can only start at the current character, which is exactly how the state
transitions below resume (a fresh `'['` restarts a candidate, anything else
drops to the outside state). -/
def bracketScan : List Char → Option (List Char) → List Nat
  | [], _ => []
  | c :: rest, none =>
    if c = '[' then bracketScan rest (some []) else bracketScan rest none
  | c :: rest, some acc =>
    if c.isDigit then bracketScan rest (some (acc ++ [c]))
    else if c = ']' then
      if acc ≠ [] then natOfDigits acc :: bracketScan rest none
      else bracketScan rest none
    else if c = '[' then bracketScan rest (some [])
    else bracketScan rest none

/-- The numbers produced by `re.findall(r'\[(\d+)\]', answer)`, in match
order, each converted by `int`. -/
def bracketNums (l : List Char) : List Nat := bracketScan l none

/-- Result record of `_audit_citations` (the Python dict). -/
structure CitationAuditResult where
  is_clean : Bool
  hallucinated_citation_numbers : List Nat
  total_citations_in_answer : Nat
  total_papers_available : Nat
  deriving Repr, DecidableEq

/-- `_audit_citations(answer, cited_papers)` (`streaming.py` 65–81):
`cited_nums = {int(n) for n in re.findall(r'\[(\d+)\]', answer)}`,
`valid_nums = {p.citation_number for p in cited_papers}`,
`hallucinated = sorted(cited_nums - valid_nums)`.  The Python sets are
modelled by deduplicated lists, the set difference by a filter, and `sorted`
by insertion sort: `sorted` of a finite set is the unique ascending
enumeration of its elements, so any correct sort gives the same list. -/
def _audit_citations (answer : String) (cited_papers : List CitedPaper) :
    CitationAuditResult :=
  let cited_nums : List Nat := (bracketNums answer.data).dedup
  let valid_nums : List Nat := (cited_papers.map (·.citation_number)).dedup
  let hallucinated : List Nat :=
    List.insertionSort (· ≤ ·)
      (cited_nums.filter (fun n => decide (n ∉ valid_nums)))
  { is_clean := hallucinated.length == 0
    hallucinated_citation_numbers := hallucinated
    total_citations_in_answer := cited_nums.length
    total_papers_available := cited_papers.length }

/-- Declarative reading of "the answer cites `n`": a standalone marker `[n]`
— an opening bracket, a non-empty digit run of value `n`, a closing bracket —
occurs somewhere in the text. -/
def CitesNum (l : List Char) (n : Nat) : Prop :=
  ∃ ds : List Char, ds ≠ [] ∧ (∀ c ∈ ds, c.isDigit = true) ∧ natOfDigits ds = n ∧
    ('[' :: (ds ++ [']'])) <:+: l

/-- The candidate match open at scanner state `some acc` completes inside `l`
with value `n`: `l` starts with a digit run followed by `']'`. -/
def ComplHere (acc l : List Char) (n : Nat) : Prop :=
  ∃ ds t, l = ds ++ ']' :: t ∧ (∀ c ∈ ds, c.isDigit = true) ∧ acc ++ ds ≠ [] ∧
    natOfDigits (acc ++ ds) = n

/-- Paper used in the C1 counterexample: its citation number is 3. -/
def c1Paper : CitedPaper := ⟨"a", "T", [], "Abs", 2020, 3⟩

/-! ## Cited-paper construction (`streaming.py`, `_build_cited_papers`) -/

/-- `paper_map = {p.id: p for p in retrieved_papers}` then
`paper_map.get(pid)`: a later paper with the same id overwrites an earlier
one, so the lookup yields the last matching paper. -/
def paperMap (retrieved : List RetrievedPaper) (pid : String) :
    Option RetrievedPaper :=
  (retrieved.filter (fun p => p.id = pid)).getLast?

/-- The `CitedPaper(...)` constructor call in `_build_cited_papers`. -/
def mkCited (p : RetrievedPaper) (i : Nat) : CitedPaper :=
  ⟨p.id, p.title, p.authors, p.abstract, p.year, i⟩

/-- Loop of `_build_cited_papers`: `i` is the 1-based `enumerate` counter and
`seen` the set of already-processed source ids (a pid is added to `seen` even
when no retrieved paper matches it). -/
def buildCitedAux (retrieved : List RetrievedPaper) :
    List String → List String → Nat → List CitedPaper
  | [], _, _ => []
  | pid :: rest, seen, i =>
    if pid ∈ seen then buildCitedAux retrieved rest seen (i + 1)
    else
      match paperMap retrieved pid with
      | some p => mkCited p i :: buildCitedAux retrieved rest (pid :: seen) (i + 1)
      | none => buildCitedAux retrieved rest (pid :: seen) (i + 1)

/-- `_build_cited_papers(source_ids, retrieved_papers)` (`streaming.py`
31–53). -/
def _build_cited_papers (source_ids : List String)
    (retrieved : List RetrievedPaper) : List CitedPaper :=
  buildCitedAux retrieved source_ids [] 1

/-- Retrieved papers for the C2 witness. -/
def c2Papers : List RetrievedPaper :=
  [⟨"a", "A", [], "x", 2020⟩, ⟨"b", "B", [], "y", 2021⟩]

/-! ## Research planner (`services/planner.py`) -/

/-- `ResearchPlanner.create_plan` (`planner.py` 75–92): takes the step list
produced by the planner model (`result.steps or []`; `none` models a
missing/falsy steps field) and renumbers the ids sequentially from 0
(`for i, step in enumerate(steps): step.id = i`).  No other normalisation —
in particular no length bound — is applied. -/
def create_plan (modelSteps : Option (List PlanStep)) : List PlanStep :=
  (modelSteps.getD []).enum.map (fun is => { is.2 with id := is.1 })

/-- `default_plan(is_research)` (`planner.py` 95–119). -/
def default_plan (is_research : Bool) : List PlanStep :=
  if !is_research then
    [⟨0, "Preparing response",
      "Formulate a helpful response to the general question", false⟩]
  else
    [⟨0, "Searching relevant papers",
      "Find academic papers relevant to the question", true⟩,
     ⟨1, "Synthesizing findings",
      "Compile the retrieved information into a clear answer", false⟩]

/-- A 5-step model output used in the C3 counterexample. -/
def fiveSteps : List PlanStep := List.replicate 5 ⟨7, "s", "d", true⟩

/-! ## Planner-skip heuristic (`streaming.py`, `_should_use_default_plan`) -/

/-- Python `str.split()` whitespace (the ASCII whitespace characters). -/
def isPySpace (c : Char) : Bool :=
  c = ' ' || c = '\t' || c = '\n' || c = '\r' ||
    c = Char.ofNat 11 || c = Char.ofNat 12

/-- `question.split()`: split on runs of whitespace, discarding empty
pieces; `acc` holds the current word reversed. -/
def pyWordsAux : List Char → List Char → List (List Char)
  | [], acc => if acc = [] then [] else [acc.reverse]
  | c :: rest, acc =>
    if isPySpace c then
      if acc = [] then pyWordsAux rest []
      else acc.reverse :: pyWordsAux rest []
    else pyWordsAux rest (c :: acc)

/-- `question.split()` on a string. -/
def pyWords (s : String) : List (List Char) := pyWordsAux s.data []

/-- `w.strip(chars)`: remove the leading and trailing characters that belong
to `cs`. -/
def pyStrip (cs : List Char) (w : List Char) : List Char :=
  ((w.dropWhile (cs.contains ·)).reverse.dropWhile (cs.contains ·)).reverse

/-- The `complex_keywords` set of `_should_use_default_plan`. -/
def complexKeywords : List (List Char) :=
  ["compare", "comparison", "difference", "differences", "versus",
   "vs", "also", "additionally", "furthermore", "contrast"].map String.data

/-- `w.lower().strip("?,.:")` applied to one word. -/
def normWord (w : List Char) : List Char :=
  pyStrip "?,.:".data (w.map Char.toLower)

/-- `_should_use_default_plan(question)` (`streaming.py` 97–108): true when
the question has fewer than 20 words and no word normalises into the
keyword set. -/
def _should_use_default_plan (question : String) : Bool :=
  if (pyWords question).length ≥ 20 then false
  else !((pyWords question).any (fun w => decide (normWord w ∈ complexKeywords)))

/-- A 25-word question containing no comparison keyword. -/
def c4LongQuestion : String :=
  "what is the effect of x on y in z over time and how does it change when we look at a larger set today"

/-! ## History cap at the orchestrator boundary (`chat.py` 97–103) -/

/-- The cap applied in `chat_basic` before handing history onwards:
`if raw_history and len(raw_history) > 5: raw_history = raw_history[-5:]`
(`none` models Python `None`; the `raw_history and` guard also leaves an
empty list untouched). -/
def capHistory {α : Type} : Option (List α) → Option (List α)
  | none => none
  | some l =>
    if l.length ≠ 0 ∧ l.length > 5 then some (l.drop (l.length - 5))
    else some l

/-! ## Incognito bypass (`chat.py`, `_load_history` / `_save_history`) -/

/-- `_load_history(conversation_id, is_incognito, user_id)` (`chat.py`
21–32).  The session-manager call is abstracted as the thunk `getHistory`;
the second component reports whether the manager was invoked at all (and
with it any cache or database tier).  `if not conversation_id or
is_incognito: return None` fires before the manager is even obtained;
otherwise `await session_manager.get_history(...) or None` maps a raised
exception (caught), a missing history and an empty history all to `None`. -/
def _load_history {α : Type} (conversationId : Option String)
    (isIncognito : Bool)
    (getHistory : Unit → Except Err (Option (List α))) :
    Option (List α) × Bool :=
  if conversationId = none ∨ conversationId = some "" ∨ isIncognito then
    (none, false)
  else
    match getHistory () with
    | .ok (some l) => (if l.length = 0 then none else some l, true)
    | .ok none => (none, true)
    | .error _ => (none, true)

/-- `_save_history(...)` (`chat.py` 35–60), abstracted to whether the
session manager's `add_message` was invoked: an incognito turn returns
before touching the manager; otherwise the call happens and any exception it
raises is swallowed. -/
def _save_history (isIncognito : Bool)
    (addMessage : Unit → Except Err Unit) : Bool :=
  if isIncognito then false
  else
    match addMessage () with
    | .ok _ => true
    | .error _ => true

/-! ## Search-step execution (`streaming.py`, `_execute_search_step`) -/

/-- Python `str.strip()` on a character list: remove leading and trailing
whitespace. -/
def stripWsChars (l : List Char) : List Char :=
  ((l.dropWhile isPySpace).reverse.dropWhile isPySpace).reverse

/-- Python `str.strip()`. -/
def stripWs (s : String) : String := ⟨stripWsChars s.data⟩

/-- The result quadruple of `_execute_search_step`:
`(search_query, papers, context, original_query_if_reformulated)`. -/
structure SearchOutcome where
  query : String
  papers : List RetrievedPaper
  context : String
  originalQuery : Option String
  deriving Repr, DecidableEq

/-- The query-selection block at the top of `_execute_search_step`
(`streaming.py` 132–140): a non-empty pre-generated query wins
(`if pre_generated_query:` is a truthiness test); otherwise the query
generator is consulted when configured (`queryGenRes` is its per-call
outcome, `none` when no generator is configured); otherwise the raw
question is used. -/
def chooseQuery (question : String) (queryGenRes : Option (Except Err String))
    (preQ : Option String) : Except Err String :=
  match preQ with
  | some q =>
    if q ≠ "" then .ok q
    else
      match queryGenRes with
      | some r => r
      | none => .ok question
  | none =>
    match queryGenRes with
    | some r => r
    | none => .ok question

/-- `_execute_search_step` (`streaming.py` 115–155), instrumented: the first
component records the retrieval queries issued (in order) and the number of
reformulator invocations; the second is the returned quadruple or the
propagated exception.  Collaborator outcomes are passed as values:
`retrieve q` is what `retriever.get_papers_with_context(q)` would produce,
`reform` (when configured) maps a query to the reformulator's outcome. -/
def _execute_search_step (question : String)
    (retrieve : String → Except Err (String × List RetrievedPaper))
    (queryGenRes : Option (Except Err String))
    (preQ : Option String)
    (reform : Option (String → Except Err String)) :
    (List String × Nat) × Except Err SearchOutcome :=
  match chooseQuery question queryGenRes preQ with
  | .error e => (([], 0), .error e)
  | .ok q =>
    match retrieve q with
    | .error e => (([q], 0), .error e)
    | .ok (ctx, papers) =>
      if papers.length = 0 then
        match reform with
        | some f =>
          match f q with
          | .error e => (([q], 1), .error e)
          | .ok b =>
            if stripWs b ≠ "" ∧ stripWs b ≠ q then
              match retrieve (stripWs b) with
              | .error e => (([q, stripWs b], 1), .error e)
              | .ok (ctx2, papers2) =>
                (([q, stripWs b], 1), .ok ⟨stripWs b, papers2, ctx2, some q⟩)
            else (([q], 1), .ok ⟨q, papers, ctx, none⟩)
        | none => (([q], 0), .ok ⟨q, papers, ctx, none⟩)
      else (([q], 0), .ok ⟨q, papers, ctx, none⟩)

/-! ## The streaming orchestrator (`streaming.py`, `stream_dspy_response`)

The async generator is modelled as a computation in a writer/except monad
`SM`: it accumulates the ordered list of emitted SSE events and of
persistence (`on_complete`) calls, and stops at the first uncaught
exception.  Locally caught exceptions (`try/except` blocks in the source)
are modelled by `SM.attempt`, which keeps what was emitted before the
failure and swallows the error.  Each collaborator sub-call is abstracted by
the outcome it would produce, recorded in `Env`. -/

/-- One SSE event (the `[DONE]` terminator included as an event). -/
inductive Ev
  | simpleThinking
  | status (step msg : String)
  | acknowledgment (content : String)
  | planEv (steps : List PlanStep)
  | stepStart (stepId : Nat) (title description : String)
  | stepActionGeneratingQuery (stepId : Nat)
  | stepActionReformulated (stepId : Nat) (originalQuery query : String)
  | stepActionSearch (stepId : Nat) (query : String)
  | stepActionResult (stepId : Nat) (paperCount : Nat)
  | stepThinking (stepId : Nat) (content : String)
  | stepDone (stepId : Nat)
  | answerStart
  | token (content : String)
  | doneEv (content : String) (sources : List CitedPaper)
  | citationAudit (audit : CitationAuditResult)
  | refinementStart (gapQuery : String)
  | refinementSearch (paperCount : Nat)
  | refinementToken (content : String)
  | refinementDone (content : String) (sources : List CitedPaper)
  | titleEv (content : String)
  | metadataEv
  | errorEv (content : String)
  | doneSentinel
  deriving Repr, DecidableEq

/-- One `on_complete(answer, sources, search_query)` persistence call. -/
structure PersistCall where
  answer : String
  sources : List CitedPaper
  search_query : Option String
  deriving Repr, DecidableEq

/-- Writer/except computation: ordered events emitted, persistence calls
made, and the value or the uncaught exception. -/
structure SM (α : Type) where
  events : List Ev
  persists : List PersistCall
  result : Except Err α

def SM.pure {α : Type} (a : α) : SM α := ⟨[], [], .ok a⟩

def SM.bind {α β : Type} (m : SM α) (f : α → SM β) : SM β :=
  match m.result with
  | .error e => ⟨m.events, m.persists, .error e⟩
  | .ok a =>
    let n := f a
    ⟨m.events ++ n.events, m.persists ++ n.persists, n.result⟩

instance : Monad SM where
  pure := SM.pure
  bind := SM.bind

/-- `yield format_sse(...)`. -/
def emit (e : Ev) : SM Unit := ⟨[e], [], .ok ()⟩

def emitAll (es : List Ev) : SM Unit := ⟨es, [], .ok ()⟩

/-- An `await on_complete(...)` invocation (the call itself; its outcome is
sequenced separately). -/
def recordPersist (p : PersistCall) : SM Unit := ⟨[], [p], .ok ()⟩

/-- An awaited sub-call with outcome `r`: raises iff `r` is an error. -/
def liftE {α : Type} (r : Except Err α) : SM α := ⟨[], [], r⟩

/-- `try: ... except: log` around a block: whatever was emitted before the
failure stays, the failure is swallowed. -/
def SM.attempt (m : SM Unit) : SM Unit := ⟨m.events, m.persists, .ok ()⟩

/-- Outcomes of every collaborator sub-call a session may make.  A field of
type `Option ...` is `none` when the corresponding collaborator was not
passed in (`None` in the source); `.error` models the call raising. -/
structure Env where
  question : String
  /-- Intent classifier outcome (the predicted `category` string). -/
  intentRes : Option (Except Err String)
  /-- Speculative query-generation task outcome (`search_query`). -/
  queryGenRes : Option (Except Err String)
  /-- Fresh per-step query generation inside `_execute_search_step`, indexed
  by step id (consulted only when a query generator is configured). -/
  freshQueryRes : Nat → Except Err String
  /-- Acknowledgment generator outcome. -/
  ackRes : Option (Except Err String)
  plannerPresent : Bool
  /-- Raw steps produced by the planner model inside `create_plan`. -/
  planRaw : Except Err (Option (List PlanStep))
  /-- `retriever.get_papers_with_context(query)`. -/
  retrieve : String → Except Err (String × List RetrievedPaper)
  /-- Query reformulator, when configured: outcome per query. -/
  reformRes : Option (String → Except Err String)
  /-- Step-thinker streamed chunks, by step id and gathered context. -/
  thinkChunks : Nat → String → Except Err (List String)
  /-- The answer program, by context string:
  `(streamed chunks, final answer, raw source ids)`. -/
  program : String → Except Err (List String × String × List String)
  /-- Gap detector outcome: `(verdict, gap_query)`. -/
  gapRes : Option (Except Err (String × String))
  /-- `on_complete` callback, when configured, and its outcome. -/
  onComplete : Option (Except Err Unit)
  /-- `generate_title` callback outcome, when configured. -/
  titleRes : Option (Except Err String)
  includeMetadata : Bool

/-- `is_research` determination (`streaming.py` 274–283): defaults to true;
overridden by the classifier result (`category != "general"`) when a
classifier is configured; a classifier exception propagates to the
orchestrator boundary. -/
def intentResearch (intentRes : Option (Except Err String)) : Except Err Bool :=
  match intentRes with
  | none => .ok true
  | some (.error e) => .error e
  | some (.ok cat) => .ok (cat != "general")

/-- Token forwarding for one streamed field: a chunk is emitted iff
non-empty (`if isinstance(...) and value.chunk`). -/
def emitChunks (mk : String → Ev) (chunks : List String) : SM Unit :=
  emitAll ((chunks.filter (fun c => decide (c ≠ ""))).map mk)

/-- Acknowledgment block (`streaming.py` 300–317): failures are caught and
ignored; an empty acknowledgment is not emitted. -/
def ackPhase (ackRes : Option (Except Err String)) : SM Unit :=
  match ackRes with
  | none => SM.pure ()
  | some (.error _) => SM.pure ()
  | some (.ok a) => if a ≠ "" then emit (.acknowledgment a) else SM.pure ()

/-- The general-question branch (`streaming.py` 322–356), excluding the
final `[DONE]`: stream the answer, emit `done` with empty sources, persist
with `search_query=None`, optionally emit the title (title failures are
caught). -/
def generalPhase (env : Env) : SM Unit := do
  emit .answerStart
  let r ← liftE (env.program "No paper context needed for this general query.")
  emitChunks .token r.1
  emit (.doneEv r.2.1 [])
  (match env.onComplete with
   | some res => do
       recordPersist ⟨r.2.1, [], none⟩
       liftE res
   | none => SM.pure ())
  (match env.titleRes with
   | some (.ok t) => emit (.titleEv t)
   | _ => SM.pure ())

/-- Collection of the speculative query task (`streaming.py` 362–368): only
`asyncio.CancelledError` is swallowed there, and the task is not cancelled
on the research path, so a generation failure propagates. -/
def collectPreQuery (queryGenRes : Option (Except Err String)) :
    Except Err (Option String) :=
  match queryGenRes with
  | none => .ok none
  | some (.error e) => .error e
  | some (.ok q) => .ok (some q)

/-- Plan selection (`streaming.py` 374–383): the planner LLM is called only
when a planner is present and the heuristic does not skip it; otherwise the
static fallback plan is used. -/
def chosenPlan (env : Env) (isResearch : Bool) : Except Err (List PlanStep) :=
  if env.plannerPresent = true ∧ _should_use_default_plan env.question = false
  then env.planRaw.map create_plan
  else .ok (default_plan isResearch)

/-- Planning block (`streaming.py` 370–390): status event, plan computation
(planner exceptions propagate), `plan` event. -/
def planPhase (env : Env) (isResearch : Bool) : SM (List PlanStep) := do
  emit (.status "planning" "Planning approach...")
  let steps ← liftE (chosenPlan env isResearch)
  emit (.planEv steps)
  SM.pure steps

/-- `_paper_summary(papers)` (`streaming.py` 56–62). -/
def _paper_summary (papers : List RetrievedPaper) : String :=
  if papers.length = 0 then "No papers retrieved yet."
  else
    String.intercalate "\n"
      ("Retrieved papers:" ::
        papers.enum.map (fun ip =>
          "  " ++ toString (ip.1 + 1) ++ ". " ++ ip.2.title ++ " (" ++
            toString ip.2.year ++ ")"))

/-- Per-step thinking streaming (`streaming.py` 474–479): only when a
planner module is present; a thinker exception propagates (no local
catch). -/
def thinkBlock (env : Env) (step : PlanStep) (gathered : String) : SM Unit :=
  if env.plannerPresent then do
    let chunks ← liftE (env.thinkChunks step.id gathered)
    emitChunks (.stepThinking step.id) chunks
  else SM.pure ()

/-- The step loop (`streaming.py` 399–481).  The arguments thread the loop
state: remaining steps, `pre_generated_query`, `gathered_context`,
`all_papers`, `all_context_parts`; returns the final
`(all_papers, all_context_parts, pre_generated_query)`.
`pre_generated_query` is set to `None` by every search step
(`streaming.py` 432). -/
def stepLoop (env : Env) :
    List PlanStep → Option String → String → List RetrievedPaper →
      List String → SM (List RetrievedPaper × List String × Option String)
  | [], preQ, _, allPapers, ctxParts => SM.pure (allPapers, ctxParts, preQ)
  | step :: rest, preQ, gathered, allPapers, ctxParts => do
    emit (.stepStart step.id step.title step.description)
    if step.needs_search then do
      (if preQ = none then emit (.stepActionGeneratingQuery step.id)
       else SM.pure ())
      let out ← liftE (_execute_search_step env.question env.retrieve
        (if env.queryGenRes.isSome then some (env.freshQueryRes step.id)
         else none)
        preQ env.reformRes).2
      (match out.originalQuery with
       | some oq => emit (.stepActionReformulated step.id oq out.query)
       | none => SM.pure ())
      let allPapers' := allPapers ++ out.papers
      emit (.stepActionSearch step.id out.query)
      emit (.stepActionResult step.id out.papers.length)
      let gathered' := _paper_summary allPapers'
      thinkBlock env step gathered'
      emit (.stepDone step.id)
      stepLoop env rest none gathered' allPapers' (ctxParts ++ [out.context])
    else do
      thinkBlock env step gathered
      emit (.stepDone step.id)
      stepLoop env rest preQ gathered allPapers ctxParts

/-- The answer-phase deduplication of gathered papers
(`streaming.py` 489–494). -/
def dedupPapers : List RetrievedPaper → List String → List RetrievedPaper
  | [], _ => []
  | p :: rest, seen =>
    if p.id ∈ seen then dedupPapers rest seen
    else p :: dedupPapers rest (p.id :: seen)

/-- `combined_context` (`streaming.py` 496–500). -/
def combinedContext (parts : List String) : String :=
  if parts.length = 0 then
    "No paper context available for this general question."
  else String.intercalate "\n\n" parts

/-- Gap-detection / refinement block (`streaming.py` 549–595), without the
surrounding `try` (the caller wraps it in `SM.attempt`).  `seenIds` holds
the ids of all papers gathered during the step loop. -/
def gapInner (env : Env) (combinedCtx : String)
    (uniquePapers : List RetrievedPaper) (seenIds : List String)
    (gapRes : Except Err (String × String)) : SM Unit := do
  -- vr = (verdict, gap_query)
  let vr ← liftE gapRes
  if vr.1 = "partial" ∧ stripWs vr.2 ≠ "" then do
    emit (.refinementStart (stripWs vr.2))
    -- er = (extra_context, extra_papers)
    let er ← liftE (env.retrieve (stripWs vr.2))
    emit (.refinementSearch er.2.length)
    let newPapers := er.2.filter (fun p => decide (p.id ∉ seenIds))
    let allRefinementPapers := uniquePapers ++ newPapers
    let enrichedCtx := combinedCtx ++
      (if er.1 ≠ "" then "\n\n" ++ er.1 else "")
    -- rr = (refinement chunks, refined answer, raw source ids)
    let rr ← liftE (env.program enrichedCtx)
    emitChunks .refinementToken rr.1
    emit (.refinementDone rr.2.1
      (_build_cited_papers rr.2.2 allRefinementPapers))
  else SM.pure ()

/-- The final answer phase (`streaming.py` 486–614), excluding the final
`[DONE]`: stream the answer, resolve citations, emit `done`, persist with
`search_query = pre_generated_query`, audit citations, optionally refine
(failures caught), optionally emit the title (failures caught), optionally
emit metadata. -/
def answerPhase (env : Env) (allPapers : List RetrievedPaper)
    (ctxParts : List String) (preQ : Option String) : SM Unit := do
  emit .answerStart
  let uniquePapers := dedupPapers allPapers []
  let combinedCtx := combinedContext ctxParts
  -- r = (streamed chunks, final answer, raw source ids)
  let r ← liftE (env.program combinedCtx)
  emitChunks .token r.1
  let citedPapers := _build_cited_papers r.2.2 uniquePapers
  emit (.doneEv r.2.1 citedPapers)
  (match env.onComplete with
   | some res => do
       recordPersist ⟨r.2.1, citedPapers, preQ⟩
       liftE res
   | none => SM.pure ())
  emit (.citationAudit (_audit_citations r.2.1 citedPapers))
  (match env.gapRes with
   | some gr => SM.attempt (gapInner env combinedCtx uniquePapers
       (allPapers.map (·.id)) gr)
   | none => SM.pure ())
  (match env.titleRes with
   | some (.ok t) => emit (.titleEv t)
   | _ => SM.pure ())
  (if env.includeMetadata then emit .metadataEv else SM.pure ())

/-- The research branch (`streaming.py` 358–614), excluding the final
`[DONE]`. -/
def researchPhase (env : Env) : SM Unit := do
  let preQ ← liftE (collectPreQuery env.queryGenRes)
  let steps ← planPhase env true
  let st ← stepLoop env steps preQ "No information gathered yet." [] []
  answerPhase env st.1 st.2.1 st.2.2

/-- The body of `stream_dspy_response`'s `try` block
(`streaming.py` 245–614), excluding the final `[DONE]`. -/
def streamBody (env : Env) : SM Unit := do
  emit .simpleThinking
  emit (.status "classifying" "Understanding your question...")
  let isResearch ← liftE (intentResearch env.intentRes)
  emit (.status "classified"
    (if isResearch then "Research question detected"
     else "General question — no paper search needed"))
  if isResearch then do
    ackPhase env.ackRes
    researchPhase env
  else generalPhase env

/-- `stream_dspy_response` (`streaming.py` 198–624): the full emitted event
sequence and persistence calls of one session.  On normal completion the
body's events are followed by the `[DONE]` sentinel; an uncaught exception
is converted by the outermost handler into one `error` event followed by
the sentinel (`streaming.py` 616–624). -/
def stream_dspy_response (env : Env) : List Ev × List PersistCall :=
  let b := streamBody env
  match b.result with
  | .ok _ => (b.events ++ [.doneSentinel], b.persists)
  | .error e => (b.events ++ [.errorEv e, .doneSentinel], b.persists)

/-! ### C8: the stream always terminates with `[DONE]`, errors are terminal -/

/-- Whether an event is an `error` SSE event. -/
def isErrorEv : Ev → Bool
  | .errorEv _ => true
  | _ => false

/-- The computation emits no `error` event (only the outermost handler in
`stream_dspy_response` produces one). -/
def NoErrEv {α : Type} (m : SM α) : Prop := ∀ e ∈ m.events, isErrorEv e = false

/-- All persistence calls made by the computation satisfy `P`. -/
def PersistsPred {α : Type} (P : PersistCall → Prop) (m : SM α) : Prop :=
  ∀ p ∈ m.persists, P p

/-- Paper retrieved in the C10 witness run. -/
def c10Paper : RetrievedPaper := ⟨"p1", "P", [], "a", 2020⟩

/-- Concrete environment for the C10 witness: a research question with a
pre-generated query `"q0"`, the default two-step plan (planner module
absent), one retrieved paper, `on_complete` configured. -/
def envC10 : Env := {
  question := "What is x"
  intentRes := some (.ok "research")
  queryGenRes := some (.ok "q0")
  freshQueryRes := fun _ => .ok "fresh"
  ackRes := none
  plannerPresent := false
  planRaw := .ok none
  retrieve := fun _ => .ok ("ctx", [c10Paper])
  reformRes := none
  thinkChunks := fun _ _ => .ok []
  program := fun _ => .ok (["t"], "ans [1]", ["p1"])
  gapRes := none
  onComplete := some (.ok ())
  titleRes := none
  includeMetadata := false }

/-- The single persistence call made in the C10 witness run: the turn is
persisted with `search_query = None` although the step-loop retrieval used
`"q0"`. -/
def c10Persist : PersistCall :=
  ⟨"ans [1]", [⟨"p1", "P", [], "a", 2020, 1⟩], none⟩

/-! ### C5: a failing intent classification aborts the session -/

/-- Concrete environment for C5: the intent classifier raises. -/
def envC5 : Env := {
  question := "q"
  intentRes := some (.error "classifier down")
  queryGenRes := none
  freshQueryRes := fun _ => .ok "f"
  ackRes := none
  plannerPresent := false
  planRaw := .ok none
  retrieve := fun _ => .ok ("ctx", [])
  reformRes := none
  thinkChunks := fun _ _ => .ok []
  program := fun _ => .ok ([], "a", [])
  gapRes := none
  onComplete := none
  titleRes := none
  includeMetadata := false }

/-- The same environment with no classifier configured. -/
def envC5b : Env := { envC5 with intentRes := none }

/-! # Theorems -/

example : bracketNums "Fact [1] and [2].".data = [1, 2] := by decide
example : bracketNums "[1,2] and [3]".data = [3] := by decide
example : bracketNums "[[12]]x[007]".data = [12, 7] := by decide

theorem digit_ne_lbrack {c : Char} (h : c.isDigit = true) : c ≠ '[' := by
  intro hc
  rw [hc] at h
  exact absurd h (by decide)

theorem citesNum_cons_iff {c : Char} (hc : c ≠ '[') (n : Nat) (rest : List Char) :
    CitesNum (c :: rest) n ↔ CitesNum rest n := by
  constructor
  · rintro ⟨ds, hne, hdig, hval, hinf⟩
    rcases List.infix_cons_iff.1 hinf with hpre | hinf'
    · rcases List.cons_prefix_cons.1 hpre with ⟨h1, -⟩
      exact absurd h1.symm hc
    · exact ⟨ds, hne, hdig, hval, hinf'⟩
  · rintro ⟨ds, hne, hdig, hval, hinf⟩
    exact ⟨ds, hne, hdig, hval, List.infix_cons hinf⟩

theorem citesNum_lbrack_iff (n : Nat) (rest : List Char) :
    CitesNum ('[' :: rest) n ↔ ComplHere [] rest n ∨ CitesNum rest n := by
  constructor
  · rintro ⟨ds, hne, hdig, hval, hinf⟩
    rcases List.infix_cons_iff.1 hinf with hpre | hinf'
    · left
      rcases List.cons_prefix_cons.1 hpre with ⟨-, t, ht⟩
      refine ⟨ds, t, ?_, hdig, by simpa using hne, by simpa using hval⟩
      rw [← ht]
      simp
    · right
      exact ⟨ds, hne, hdig, hval, hinf'⟩
  · rintro (⟨ds, t, hrest, hdig, hne, hval⟩ | ⟨ds, hne, hdig, hval, hinf⟩)
    · refine ⟨ds, by simpa using hne, hdig, by simpa using hval, [], t, ?_⟩
      simp [hrest]
    · exact ⟨ds, hne, hdig, hval, List.infix_cons hinf⟩

theorem complHere_dead {c : Char} (hcd : c.isDigit = false) (hcb : c ≠ ']')
    (acc rest : List Char) (n : Nat) : ¬ ComplHere acc (c :: rest) n := by
  rintro ⟨ds, t, heq, hdig, -, -⟩
  cases ds with
  | nil =>
    simp only [List.nil_append, List.cons.injEq] at heq
    exact hcb heq.1
  | cons d ds' =>
    simp only [List.cons_append, List.cons.injEq] at heq
    have hd := hdig d (by simp)
    rw [← heq.1] at hd
    rw [hd] at hcd
    exact absurd hcd (by simp)

theorem complHere_rbrack_iff (acc rest : List Char) (n : Nat) :
    ComplHere acc (']' :: rest) n ↔ (acc ≠ [] ∧ natOfDigits acc = n) := by
  constructor
  · rintro ⟨ds, t, heq, hdig, hne, hval⟩
    cases ds with
    | nil =>
      simp only [List.append_nil] at hne hval
      exact ⟨hne, hval⟩
    | cons d ds' =>
      simp only [List.cons_append, List.cons.injEq] at heq
      have hd := hdig d (by simp)
      rw [← heq.1] at hd
      exact absurd hd (by decide)
  · rintro ⟨hne, hval⟩
    exact ⟨[], rest, by simp, by simp, by simpa using hne, by simpa using hval⟩

theorem complHere_digit_iff {c : Char} (hcd : c.isDigit = true)
    (acc rest : List Char) (n : Nat) :
    ComplHere acc (c :: rest) n ↔ ComplHere (acc ++ [c]) rest n := by
  constructor
  · rintro ⟨ds, t, heq, hdig, hne, hval⟩
    cases ds with
    | nil =>
      simp only [List.nil_append, List.cons.injEq] at heq
      rw [heq.1] at hcd
      exact absurd hcd (by decide)
    | cons d ds' =>
      simp only [List.cons_append, List.cons.injEq] at heq
      obtain ⟨hcd', hrest⟩ := heq
      refine ⟨ds', t, hrest, fun x hx => hdig x (by simp [hx]), by simp, ?_⟩
      rw [← hval, hcd']
      simp
  · rintro ⟨ds', t, heq, hdig, hne, hval⟩
    refine ⟨c :: ds', t, by simp [heq], ?_, by simp, ?_⟩
    · intro x hx
      rcases List.mem_cons.1 hx with rfl | hx'
      · exact hcd
      · exact hdig x hx'
    · rw [← hval]
      simp

theorem bracketScan_none_step {c : Char} (hc : c ≠ '[') (rest : List Char) :
    bracketScan (c :: rest) none = bracketScan rest none := by
  simp [bracketScan, hc]

theorem bracketScan_some_digit {c : Char} (hcd : c.isDigit = true)
    (rest acc : List Char) :
    bracketScan (c :: rest) (some acc) = bracketScan rest (some (acc ++ [c])) := by
  simp [bracketScan, hcd]

theorem bracketScan_some_rbrack (rest acc : List Char) :
    bracketScan (']' :: rest) (some acc) =
      if acc ≠ [] then natOfDigits acc :: bracketScan rest none
      else bracketScan rest none := by
  simp [bracketScan, (by decide : (']' : Char).isDigit = false)]

theorem bracketScan_some_other {c : Char} (hcd : c.isDigit = false)
    (hcb : c ≠ ']') (hc : c ≠ '[') (rest acc : List Char) :
    bracketScan (c :: rest) (some acc) = bracketScan rest none := by
  simp [bracketScan, hcd, hcb, hc]

/-- The scanner agrees with the declarative standalone-marker reading, in both
scanner states. -/
theorem bracketScan_mem_iff (n : Nat) : ∀ l : List Char,
    (n ∈ bracketScan l none ↔ CitesNum l n) ∧
    (∀ acc, n ∈ bracketScan l (some acc) ↔ ComplHere acc l n ∨ CitesNum l n) := by
  intro l
  induction l with
  | nil =>
    refine ⟨by simp [bracketScan, CitesNum], fun acc => ?_⟩
    simp [bracketScan, CitesNum, ComplHere]
  | cons c rest ih =>
    obtain ⟨ihn, ihs⟩ := ih
    constructor
    · by_cases hc : c = '['
      · subst hc
        rw [show bracketScan ('[' :: rest) none = bracketScan rest (some []) from rfl,
          ihs [], citesNum_lbrack_iff]
      · rw [bracketScan_none_step hc, ihn, citesNum_cons_iff hc]
    · intro acc
      rcases Bool.eq_false_or_eq_true c.isDigit with hcd | hcd
      · rw [bracketScan_some_digit hcd, ihs (acc ++ [c]), complHere_digit_iff hcd,
          citesNum_cons_iff (digit_ne_lbrack hcd)]
      · by_cases hcb : c = ']'
        · subst hcb
          rw [bracketScan_some_rbrack, complHere_rbrack_iff,
            citesNum_cons_iff (show (']' : Char) ≠ '[' by decide)]
          cases acc with
          | nil => simp [ihn]
          | cons a as =>
            rw [if_pos (List.cons_ne_nil a as), List.mem_cons, ihn]
            simp [eq_comm]
        · by_cases hc : c = '['
          · subst hc
            rw [show bracketScan ('[' :: rest) (some acc) = bracketScan rest (some [])
                from rfl, ihs [], citesNum_lbrack_iff]
            have hdead := complHere_dead (c := '[') (by decide) (by decide) acc rest n
            tauto
          · rw [bracketScan_some_other hcd hcb hc, ihn, citesNum_cons_iff hc]
            have hdead := complHere_dead hcd hcb acc rest n
            tauto

theorem bracketNums_mem_iff (n : Nat) (l : List Char) :
    n ∈ bracketNums l ↔ CitesNum l n :=
  (bracketScan_mem_iff n l).1

/-- **C1 (amended).** For every answer string and ordered CitedPaper list,
the audit computed by `_audit_citations` satisfies:
`hallucinated_citation_numbers` is ascending and contains exactly the
integers `n` cited by a standalone marker `[n]` in the answer (a marker such
as `[1,2]` contributes nothing) whose value is not among the papers'
`citation_number`s (not: not in `{1..len}`); `is_clean` holds iff that list
is empty; `total_citations_in_answer` is the number of distinct cited
integers; `total_papers_available` is the length of the CitedPaper list. -/
theorem audit_citations_amended (answer : String) (papers : List CitedPaper) :
    ((_audit_citations answer papers).is_clean = true ↔
      (_audit_citations answer papers).hallucinated_citation_numbers = []) ∧
    List.Sorted (· ≤ ·)
      (_audit_citations answer papers).hallucinated_citation_numbers ∧
    (∀ n : Nat,
      n ∈ (_audit_citations answer papers).hallucinated_citation_numbers ↔
        (CitesNum answer.data n ∧ n ∉ papers.map (·.citation_number))) ∧
    (_audit_citations answer papers).total_citations_in_answer =
      (bracketNums answer.data).dedup.length ∧
    (_audit_citations answer papers).total_papers_available = papers.length := by
  refine ⟨?_, ?_, ?_, rfl, rfl⟩
  · simp only [_audit_citations, beq_iff_eq, List.length_eq_zero]
  · simp only [_audit_citations]
    exact List.sorted_insertionSort _ _
  · intro n
    simp only [_audit_citations]
    rw [(List.perm_insertionSort _ _).mem_iff, List.mem_filter, List.mem_dedup,
      bracketNums_mem_iff]
    simp

/-- **C1 (counterexample).** On the answer `"[1,2] and [3]"` with one paper
carrying citation number 3, the claim as stated predicts
`cited = {1,2,3}` (with `[1,2]` contributing 1 and 2), `valid = {1..1}`,
hence `hallucinated = [2,3]`, `is_clean = false`,
`total_citations_in_answer = 3`.  The code instead returns `is_clean = true`,
`hallucinated = []`, `total_citations_in_answer = 1`: the regex `\[(\d+)\]`
matches only the standalone `[3]`, and the valid set is the set of actual
citation numbers `{3}`, not `{1..len}`. -/
theorem audit_citations_counterexample :
    _audit_citations "[1,2] and [3]" [c1Paper] ≠
      { is_clean := false, hallucinated_citation_numbers := [2, 3],
        total_citations_in_answer := 3, total_papers_available := 1 } ∧
    _audit_citations "[1,2] and [3]" [c1Paper] =
      { is_clean := true, hallucinated_citation_numbers := [],
        total_citations_in_answer := 1, total_papers_available := 1 } := by
  constructor
  · decide
  · decide

theorem paperMap_id {retrieved : List RetrievedPaper} {pid : String}
    {p : RetrievedPaper} (h : paperMap retrieved pid = some p) : p.id = pid := by
  have hm := List.mem_of_getLast?_eq_some h
  have := (List.mem_filter.1 hm).2
  exact of_decide_eq_true this

theorem buildCitedAux_spec (retrieved : List RetrievedPaper) :
    ∀ (ids seen : List String) (i : Nat),
      (∀ c ∈ buildCitedAux retrieved ids seen i,
        c.id ∉ seen ∧ c.id ∈ ids ∧ c.citation_number = i + ids.indexOf c.id) ∧
      ((buildCitedAux retrieved ids seen i).map (·.id)).Nodup := by
  intro ids
  induction ids with
  | nil =>
    intro seen i
    constructor <;> simp [buildCitedAux]
  | cons pid rest ih =>
    intro seen i
    by_cases hmem : pid ∈ seen
    · simp only [buildCitedAux, if_pos hmem]
      obtain ⟨hall, hnd⟩ := ih seen (i + 1)
      refine ⟨fun c hc => ?_, hnd⟩
      obtain ⟨h1, h2, h3⟩ := hall c hc
      have hne : pid ≠ c.id := fun h => h1 (h ▸ hmem)
      refine ⟨h1, List.mem_cons_of_mem _ h2, ?_⟩
      rw [List.indexOf_cons_ne _ hne, h3]
      omega
    · obtain ⟨hall, hnd⟩ := ih (pid :: seen) (i + 1)
      cases hpm : paperMap retrieved pid with
      | some p =>
        have hpid := paperMap_id hpm
        simp only [buildCitedAux, if_neg hmem, hpm]
        constructor
        · intro c hc
          rcases List.mem_cons.1 hc with rfl | hc'
          · refine ⟨by simpa [mkCited, hpid] using hmem, by simp [mkCited, hpid], ?_⟩
            simp [mkCited, hpid, List.indexOf_cons_self]
          · obtain ⟨h1, h2, h3⟩ := hall c hc'
            have hne : pid ≠ c.id := fun h => h1 (h ▸ List.mem_cons_self pid seen)
            have h1' : c.id ∉ seen := fun h => h1 (List.mem_cons_of_mem _ h)
            refine ⟨h1', List.mem_cons_of_mem _ h2, ?_⟩
            rw [List.indexOf_cons_ne _ hne, h3]
            omega
        · rw [List.map_cons, List.nodup_cons]
          refine ⟨?_, hnd⟩
          intro hin
          rcases List.mem_map.1 hin with ⟨c, hc, hcid⟩
          obtain ⟨h1, -, -⟩ := hall c hc
          exact h1 (by rw [hcid]; simp [mkCited, hpid])
      | none =>
        simp only [buildCitedAux, if_neg hmem, hpm]
        refine ⟨fun c hc => ?_, hnd⟩
        obtain ⟨h1, h2, h3⟩ := hall c hc
        have hne : pid ≠ c.id := fun h => h1 (h ▸ List.mem_cons_self pid seen)
        have h1' : c.id ∉ seen := fun h => h1 (List.mem_cons_of_mem _ h)
        refine ⟨h1', List.mem_cons_of_mem _ h2, ?_⟩
        rw [List.indexOf_cons_ne _ hne, h3]
        omega

/-- **C2.** The CitedPaper list built from a raw source-id list contains at
most one entry per paper id, and each entry's citation number is the 1-based
rank (`indexOf` + 1) of the first appearance of its id in the raw source
list, so duplicate ids collapse to a single entry at their first
occurrence. -/
theorem build_cited_papers_spec (source_ids : List String)
    (retrieved : List RetrievedPaper) :
    ((_build_cited_papers source_ids retrieved).map (·.id)).Nodup ∧
    ∀ c ∈ _build_cited_papers source_ids retrieved,
      c.id ∈ source_ids ∧ c.citation_number = source_ids.indexOf c.id + 1 := by
  obtain ⟨hall, hnd⟩ := buildCitedAux_spec retrieved source_ids [] 1
  refine ⟨hnd, fun c hc => ?_⟩
  obtain ⟨-, h2, h3⟩ := hall c hc
  refine ⟨h2, ?_⟩
  rw [h3]
  omega

/-- **C2 (witness).** On `source_ids = ["a", "a", "b"]` the paper with id
`"b"` gets citation number 3, the 1-based rank of the first (and only)
appearance of `"b"`; the duplicate `"a"` collapsed into the single entry
numbered 1. -/
theorem build_cited_papers_spec_witness :
    (⟨"b", "B", [], "y", 2021, 3⟩ : CitedPaper) ∈
      _build_cited_papers ["a", "a", "b"] c2Papers ∧
    ("b" ∈ ["a", "a", "b"] ∧
      (⟨"b", "B", [], "y", 2021, 3⟩ : CitedPaper).citation_number =
        (["a", "a", "b"].indexOf "b") + 1) :=
  ⟨by decide,
    (build_cited_papers_spec ["a", "a", "b"] c2Papers).2
      ⟨"b", "B", [], "y", 2021, 3⟩ (by decide)⟩

/-- **C3 (counterexample).** `create_plan` does not enforce the claimed
`1 ≤ len(steps) ≤ 4` bound: a 5-step model output passes through with five
steps, and a missing/empty output yields zero steps.  Only the id
renumbering is guaranteed by the code. -/
theorem create_plan_length_counterexample :
    ¬ (1 ≤ (create_plan (some fiveSteps)).length ∧
        (create_plan (some fiveSteps)).length ≤ 4) ∧
    (create_plan none).length = 0 := by
  constructor
  · decide
  · decide

/-- **C3 (amended).** Every plan returned by `create_plan` has sequentially
renumbered ids (`steps[i].id = i`) and exactly as many steps as the model
returned (no length bound is enforced on model output); the static fallback
`default_plan` does satisfy `1 ≤ len(steps) ≤ 4` with sequential ids for
both flag values. -/
theorem create_plan_amended (ms : Option (List PlanStep)) :
    (create_plan ms).length = (ms.getD []).length ∧
    (∀ i (h : i < (create_plan ms).length), ((create_plan ms).get ⟨i, h⟩).id = i) ∧
    (∀ b : Bool, 1 ≤ (default_plan b).length ∧ (default_plan b).length ≤ 4 ∧
      ∀ i (h : i < (default_plan b).length), ((default_plan b).get ⟨i, h⟩).id = i) := by
  refine ⟨by simp [create_plan], fun i h => ?_, fun b => ?_⟩
  · simp [create_plan]
  · cases b
    · refine ⟨by decide, by decide, fun i h => ?_⟩
      have h1 : i < 1 := by simpa [default_plan] using h
      have h0 : i = 0 := by omega
      subst h0
      rfl
    · refine ⟨by decide, by decide, fun i h => ?_⟩
      have h2 : i < 2 := by simpa [default_plan] using h
      have h0 : i = 0 ∨ i = 1 := by omega
      rcases h0 with h0 | h0 <;> subst h0 <;> rfl

/-- **C3 (witness).** Instantiation of the amended claim on the 5-step model
output at index 2. -/
theorem create_plan_amended_witness :
    ((create_plan (some fiveSteps)).get ⟨2, by decide⟩).id = 2 :=
  (create_plan_amended (some fiveSteps)).2.1 2 (by decide)

/-- **C4.** The planner-skip heuristic returns true iff the question has
fewer than 20 whitespace-separated words and no word — lowercased and
stripped of the punctuation characters `? , . :` — belongs to the fixed
comparison-keyword set; it returns true on `"Hi"`, and false on every
question of at least 20 words (so on any 25-word keyword-free question). -/
theorem should_use_default_plan_spec (q : String) :
    (_should_use_default_plan q = true ↔
      ((pyWords q).length < 20 ∧
        ∀ w ∈ pyWords q, normWord w ∉ complexKeywords)) ∧
    _should_use_default_plan "Hi" = true ∧
    (20 ≤ (pyWords q).length → _should_use_default_plan q = false) := by
  refine ⟨?_, by decide, fun h => ?_⟩
  · unfold _should_use_default_plan
    by_cases h : (pyWords q).length ≥ 20
    · rw [if_pos h]
      simp only [Bool.false_eq_true, false_iff, not_and]
      intro h1
      omega
    · rw [if_neg h]
      rw [Bool.not_eq_true', List.any_eq_false]
      constructor
      · intro hall
        exact ⟨by omega, fun w hw => by simpa using hall w hw⟩
      · rintro ⟨-, hall⟩ w hw
        simpa using hall w hw
  · unfold _should_use_default_plan
    rw [if_pos h]

/-- **C4 (witness).** The 25-word keyword-free question forces planning:
the heuristic returns false on it. -/
theorem should_use_default_plan_spec_witness :
    _should_use_default_plan c4LongQuestion = false :=
  (should_use_default_plan_spec c4LongQuestion).2.2 (by decide)

/-- **C6.** Whatever the session manager returned, the history handed to the
answer generator is a suffix (the last turns, in order) of it, of length
`min n 5` — in particular never more than 5 turns; absent history stays
absent. -/
theorem history_cap_last_five {α : Type} (l : List α) :
    (∃ l', capHistory (some l) = some l' ∧ l'.length = min l.length 5 ∧
      l' <:+ l) ∧
    capHistory (none : Option (List α)) = none := by
  refine ⟨?_, rfl⟩
  by_cases h : l.length ≠ 0 ∧ l.length > 5
  · refine ⟨l.drop (l.length - 5), by simp only [capHistory, if_pos h], ?_,
      List.drop_suffix _ _⟩
    have h5 := h.2
    rw [List.length_drop, Nat.min_def, if_neg (by omega)]
    omega
  · have h5 : l.length ≤ 5 := by
      by_contra hc
      push_neg at hc
      exact h ⟨by omega, by omega⟩
    refine ⟨l, by simp only [capHistory, if_neg h], ?_, List.suffix_refl l⟩
    rw [Nat.min_def, if_pos h5]

/-- **C9.** For every incognito conversation, loading history returns absent
without invoking the session manager (hence neither the cache tier nor the
durable tier is read or connected to), and saving a turn is a no-op that
equally never invokes the manager. -/
theorem incognito_bypasses_persistence {α : Type}
    (conversationId : Option String)
    (getHistory : Unit → Except Err (Option (List α)))
    (addMessage : Unit → Except Err Unit) :
    _load_history conversationId true getHistory = (none, false) ∧
    _save_history true addMessage = false := by
  constructor
  · simp [_load_history]
  · simp [_save_history]

/-- Global retry bounds of `_execute_search_step`: never more than one
reformulation, never more than two retrievals, on any input including error
paths. -/
theorem execute_search_step_logs (question : String)
    (retrieve : String → Except Err (String × List RetrievedPaper))
    (qg : Option (Except Err String)) (preQ : Option String)
    (reform : Option (String → Except Err String)) :
    (_execute_search_step question retrieve qg preQ reform).1.2 ≤ 1 ∧
    (_execute_search_step question retrieve qg preQ reform).1.1.length ≤ 2 := by
  unfold _execute_search_step
  rcases hcq : chooseQuery question qg preQ with e | q
  · simp
  · rcases hret : retrieve q with e | cp
    · simp [hret]
    · obtain ⟨ctx, papers⟩ := cp
      by_cases hp : papers.length = 0
      · rcases reform with _ | f
        · simp [hret, hp]
        · rcases hf : f q with e | b
          · simp [hret, hp, hf]
          · by_cases hb : stripWs b ≠ "" ∧ stripWs b ≠ q
            · rcases hret2 : retrieve (stripWs b) with e | cp2
              · simp [hret, hp, hf, hb, hret2]
              · obtain ⟨c2, p2⟩ := cp2
                simp [hret, hp, hf, hb, hret2]
            · simp [hret, hp, hf, hb]
      · simp [hret, hp]

/-- **C7.** For a search step whose (first) retrieval succeeds: if it
returned at least one paper, the step performs no reformulation and no
second retrieval and returns the first results unchanged; if it returned
zero papers and a reformulator is configured, exactly one reformulation is
attempted; and in every case at most one reformulation and at most two
retrievals (hence at most one retry) are performed. -/
theorem execute_search_step_single_retry (question : String)
    (retrieve : String → Except Err (String × List RetrievedPaper))
    (qg : Option (Except Err String)) (preQ : Option String)
    (reform : Option (String → Except Err String))
    (q ctx : String) (papers : List RetrievedPaper)
    (hq : chooseQuery question qg preQ = .ok q)
    (hr : retrieve q = .ok (ctx, papers)) :
    ((_execute_search_step question retrieve qg preQ reform).1.2 ≤ 1 ∧
      (_execute_search_step question retrieve qg preQ reform).1.1.length ≤ 2) ∧
    (papers ≠ [] →
      _execute_search_step question retrieve qg preQ reform =
        (([q], 0), .ok ⟨q, papers, ctx, none⟩)) ∧
    (papers = [] → reform.isSome →
      (_execute_search_step question retrieve qg preQ reform).1.2 = 1) := by
  refine ⟨execute_search_step_logs question retrieve qg preQ reform, ?_, ?_⟩
  · intro hne
    have hp : ¬ papers.length = 0 := by
      simpa [List.length_eq_zero] using hne
    unfold _execute_search_step
    simp [hq, hr, hp]
  · intro hpe hs
    unfold _execute_search_step
    rcases reform with _ | f
    · simp at hs
    · rcases hf : f q with e | b
      · simp [hq, hr, hpe, hf]
      · by_cases hb : stripWs b ≠ "" ∧ stripWs b ≠ q
        · rcases hret2 : retrieve (stripWs b) with e | cp2
          · simp [hq, hr, hpe, hf, hb, hret2]
          · obtain ⟨c2, p2⟩ := cp2
            simp [hq, hr, hpe, hf, hb, hret2]
        · simp [hq, hr, hpe, hf, hb]

/-- **C7 (witness).** A concrete zero-result step with a reformulator: the
pre-generated query `"q0"` retrieves nothing, exactly one reformulation to
`"broader"` happens, and the single retry is also the last retrieval. -/
theorem execute_search_step_single_retry_witness :
    ((_execute_search_step "x" (fun _ => .ok ("ctx", []))
        none (some "q0") (some (fun _ => .ok "broader"))).1.2 ≤ 1 ∧
      (_execute_search_step "x" (fun _ => .ok ("ctx", []))
        none (some "q0") (some (fun _ => .ok "broader"))).1.1.length ≤ 2) ∧
    (([] : List RetrievedPaper) ≠ [] →
      _execute_search_step "x" (fun _ => .ok ("ctx", []))
        none (some "q0") (some (fun _ => .ok "broader")) =
        ((["q0"], 0), .ok ⟨"q0", [], "ctx", none⟩)) ∧
    (([] : List RetrievedPaper) = [] →
      (some (fun _ => .ok "broader") :
        Option (String → Except Err String)).isSome →
      (_execute_search_step "x" (fun _ => .ok ("ctx", []))
        none (some "q0") (some (fun _ => .ok "broader"))).1.2 = 1) :=
  execute_search_step_single_retry "x" (fun _ => .ok ("ctx", []))
    none (some "q0") (some (fun _ => .ok "broader"))
    "q0" "ctx" [] rfl rfl

theorem SM.events_bind {α β : Type} (m : SM α) (f : α → SM β) :
    (m >>= f).events = m.events ++
      (match m.result with
       | .ok a => (f a).events
       | .error _ => []) := by
  show (SM.bind m f).events = _
  unfold SM.bind
  cases m.result <;> simp

theorem noErrEv_bind {α β : Type} {m : SM α} {f : α → SM β}
    (hm : NoErrEv m) (hf : ∀ a, m.result = .ok a → NoErrEv (f a)) :
    NoErrEv (m >>= f) := by
  intro e he
  rw [SM.events_bind] at he
  rcases List.mem_append.1 he with h | h
  · exact hm e h
  · rcases hr : m.result with er | a
    · rw [hr] at h
      simp at h
    · rw [hr] at h
      exact hf a hr e h

theorem noErrEv_emit {e : Ev} (h : isErrorEv e = false) : NoErrEv (emit e) := by
  intro x hx
  simp only [emit] at hx
  rcases List.mem_singleton.1 hx with rfl
  exact h

theorem noErrEv_pure {α : Type} (a : α) : NoErrEv (SM.pure a) := by
  intro x hx
  simp [SM.pure] at hx

theorem noErrEv_liftE {α : Type} (r : Except Err α) : NoErrEv (liftE r) := by
  intro x hx
  simp [liftE] at hx

theorem noErrEv_recordPersist (p : PersistCall) : NoErrEv (recordPersist p) := by
  intro x hx
  simp [recordPersist] at hx

theorem noErrEv_attempt {m : SM Unit} (h : NoErrEv m) : NoErrEv (SM.attempt m) := h

theorem noErrEv_emitChunks {mk : String → Ev}
    (h : ∀ s, isErrorEv (mk s) = false) (chunks : List String) :
    NoErrEv (emitChunks mk chunks) := by
  intro e he
  simp only [emitChunks, emitAll] at he
  rcases List.mem_map.1 he with ⟨c, -, rfl⟩
  exact h c

theorem noErrEv_ackPhase (r : Option (Except Err String)) :
    NoErrEv (ackPhase r) := by
  unfold ackPhase
  split
  · exact noErrEv_pure _
  · exact noErrEv_pure _
  · split
    · exact noErrEv_emit (by rfl)
    · exact noErrEv_pure _

theorem noErrEv_generalPhase (env : Env) : NoErrEv (generalPhase env) := by
  unfold generalPhase
  refine noErrEv_bind (noErrEv_emit (by rfl)) (fun _ _ => ?_)
  refine noErrEv_bind (noErrEv_liftE _) (fun r _ => ?_)
  refine noErrEv_bind (noErrEv_emitChunks (fun s => by rfl) _) (fun _ _ => ?_)
  refine noErrEv_bind (noErrEv_emit (by rfl)) (fun _ _ => ?_)
  refine noErrEv_bind ?_ (fun _ _ => ?_)
  · split
    · exact noErrEv_bind (noErrEv_recordPersist _) (fun _ _ => noErrEv_liftE _)
    · exact noErrEv_pure _
  · split
    · exact noErrEv_emit (by rfl)
    · exact noErrEv_pure _

theorem noErrEv_planPhase (env : Env) (b : Bool) : NoErrEv (planPhase env b) := by
  unfold planPhase
  refine noErrEv_bind (noErrEv_emit (by rfl)) (fun _ _ => ?_)
  refine noErrEv_bind (noErrEv_liftE _) (fun steps _ => ?_)
  exact noErrEv_bind (noErrEv_emit (by rfl)) (fun _ _ => noErrEv_pure _)

theorem noErrEv_thinkBlock (env : Env) (step : PlanStep) (g : String) :
    NoErrEv (thinkBlock env step g) := by
  unfold thinkBlock
  split
  · exact noErrEv_bind (noErrEv_liftE _)
      (fun chunks _ => noErrEv_emitChunks (fun s => by rfl) _)
  · exact noErrEv_pure _

theorem noErrEv_stepLoop (env : Env) :
    ∀ (steps : List PlanStep) (preQ : Option String) (g : String)
      (aps : List RetrievedPaper) (cps : List String),
      NoErrEv (stepLoop env steps preQ g aps cps) := by
  intro steps
  induction steps with
  | nil =>
    intro preQ g aps cps
    exact noErrEv_pure _
  | cons step rest ih =>
    intro preQ g aps cps
    refine noErrEv_bind (noErrEv_emit (by rfl)) (fun _ _ => ?_)
    split
    · refine noErrEv_bind ?_ (fun _ _ => ?_)
      · split
        · exact noErrEv_emit (by rfl)
        · exact noErrEv_pure _
      · refine noErrEv_bind (noErrEv_liftE _) (fun out _ => ?_)
        refine noErrEv_bind ?_ (fun _ _ => ?_)
        · split
          · exact noErrEv_emit (by rfl)
          · exact noErrEv_pure _
        · refine noErrEv_bind (noErrEv_emit (by rfl)) (fun _ _ => ?_)
          refine noErrEv_bind (noErrEv_emit (by rfl)) (fun _ _ => ?_)
          refine noErrEv_bind (noErrEv_thinkBlock env step _) (fun _ _ => ?_)
          refine noErrEv_bind (noErrEv_emit (by rfl)) (fun _ _ => ?_)
          exact ih none _ _ _
    · refine noErrEv_bind (noErrEv_thinkBlock env step g) (fun _ _ => ?_)
      refine noErrEv_bind (noErrEv_emit (by rfl)) (fun _ _ => ?_)
      exact ih preQ g aps cps

theorem noErrEv_gapInner (env : Env) (cctx : String)
    (uniquePapers : List RetrievedPaper) (seenIds : List String)
    (gr : Except Err (String × String)) :
    NoErrEv (gapInner env cctx uniquePapers seenIds gr) := by
  unfold gapInner
  refine noErrEv_bind (noErrEv_liftE _) (fun vr _ => ?_)
  split
  · refine noErrEv_bind (noErrEv_emit (by rfl)) (fun _ _ => ?_)
    refine noErrEv_bind (noErrEv_liftE _) (fun er _ => ?_)
    refine noErrEv_bind (noErrEv_emit (by rfl)) (fun _ _ => ?_)
    refine noErrEv_bind (noErrEv_liftE _) (fun rr _ => ?_)
    exact noErrEv_bind (noErrEv_emitChunks (fun s => by rfl) _)
      (fun _ _ => noErrEv_emit (by rfl))
  · exact noErrEv_pure _

theorem noErrEv_answerPhase (env : Env) (allPapers : List RetrievedPaper)
    (ctxParts : List String) (preQ : Option String) :
    NoErrEv (answerPhase env allPapers ctxParts preQ) := by
  unfold answerPhase
  refine noErrEv_bind (noErrEv_emit (by rfl)) (fun _ _ => ?_)
  refine noErrEv_bind (noErrEv_liftE _) (fun r _ => ?_)
  refine noErrEv_bind (noErrEv_emitChunks (fun s => by rfl) _) (fun _ _ => ?_)
  refine noErrEv_bind (noErrEv_emit (by rfl)) (fun _ _ => ?_)
  refine noErrEv_bind ?_ (fun _ _ => ?_)
  · split
    · exact noErrEv_bind (noErrEv_recordPersist _) (fun _ _ => noErrEv_liftE _)
    · exact noErrEv_pure _
  · refine noErrEv_bind (noErrEv_emit (by rfl)) (fun _ _ => ?_)
    refine noErrEv_bind ?_ (fun _ _ => ?_)
    · split
      · exact noErrEv_attempt (noErrEv_gapInner env _ _ _ _)
      · exact noErrEv_pure _
    · refine noErrEv_bind ?_ (fun _ _ => ?_)
      · split
        · exact noErrEv_emit (by rfl)
        · exact noErrEv_pure _
      · split
        · exact noErrEv_emit (by rfl)
        · exact noErrEv_pure _

theorem noErrEv_researchPhase (env : Env) : NoErrEv (researchPhase env) := by
  unfold researchPhase
  refine noErrEv_bind (noErrEv_liftE _) (fun preQ _ => ?_)
  refine noErrEv_bind (noErrEv_planPhase env true) (fun steps _ => ?_)
  refine noErrEv_bind (noErrEv_stepLoop env steps preQ _ [] []) (fun st _ => ?_)
  exact noErrEv_answerPhase env st.1 st.2.1 st.2.2

theorem noErrEv_streamBody (env : Env) : NoErrEv (streamBody env) := by
  unfold streamBody
  refine noErrEv_bind (noErrEv_emit (by rfl)) (fun _ _ => ?_)
  refine noErrEv_bind (noErrEv_emit (by rfl)) (fun _ _ => ?_)
  refine noErrEv_bind (noErrEv_liftE _) (fun isResearch _ => ?_)
  refine noErrEv_bind (noErrEv_emit (by rfl)) (fun _ _ => ?_)
  split
  · exact noErrEv_bind (noErrEv_ackPhase env.ackRes)
      (fun _ _ => noErrEv_researchPhase env)
  · exact noErrEv_generalPhase env

/-- The unfolding of `stream_dspy_response` as an equation. -/
theorem stream_dspy_response_eq (env : Env) :
    stream_dspy_response env =
      match (streamBody env).result with
      | .ok _ =>
        ((streamBody env).events ++ [Ev.doneSentinel], (streamBody env).persists)
      | .error e =>
        ((streamBody env).events ++ [Ev.errorEv e, Ev.doneSentinel],
          (streamBody env).persists) := rfl

/-- **C8.** For every environment (so for every combination of sub-call
outcomes, failures included), the emitted event sequence of a session ends
with the `[DONE]` sentinel, and an `error` event can only appear as the
single event immediately preceding that final sentinel: on normal
completion no `error` event is emitted at all, and on an unhandled
exception exactly one `error` event carrying the failure message is
emitted, followed immediately by `[DONE]`, with nothing after it. -/
theorem stream_terminates_with_done_sentinel (env : Env) :
    ∃ pre, (∀ e ∈ pre, isErrorEv e = false) ∧
      ((stream_dspy_response env).1 = pre ++ [Ev.doneSentinel] ∨
        ∃ msg, (stream_dspy_response env).1 =
          pre ++ [Ev.errorEv msg, Ev.doneSentinel]) := by
  have hb := noErrEv_streamBody env
  refine ⟨(streamBody env).events, hb, ?_⟩
  rw [stream_dspy_response_eq]
  rcases hr : (streamBody env).result with e | a
  · exact Or.inr ⟨e, rfl⟩
  · exact Or.inl rfl

/-! ### C10: the persisted `search_query` after any search step is `None` -/

theorem SM.persists_bind {α β : Type} (m : SM α) (f : α → SM β) :
    (m >>= f).persists = m.persists ++
      (match m.result with
       | .ok a => (f a).persists
       | .error _ => []) := by
  show (SM.bind m f).persists = _
  unfold SM.bind
  cases m.result <;> simp

theorem SM.result_bind {α β : Type} (m : SM α) (f : α → SM β) :
    (m >>= f).result =
      (match m.result with
       | .ok a => (f a).result
       | .error e => .error e) := by
  show (SM.bind m f).result = _
  unfold SM.bind
  cases m.result <;> simp

theorem result_emit (e : Ev) : (emit e).result = .ok () := rfl
theorem result_pure {α : Type} (a : α) : (SM.pure a).result = .ok a := rfl
theorem result_liftE {α : Type} (r : Except Err α) : (liftE r).result = r := rfl
theorem result_record (p : PersistCall) : (recordPersist p).result = .ok () := rfl

theorem persistsPred_bind {α β : Type} {P : PersistCall → Prop} {m : SM α}
    {f : α → SM β} (hm : PersistsPred P m)
    (hf : ∀ a, m.result = .ok a → PersistsPred P (f a)) :
    PersistsPred P (m >>= f) := by
  intro p hp
  rw [SM.persists_bind] at hp
  rcases List.mem_append.1 hp with h | h
  · exact hm p h
  · rcases hr : m.result with er | a
    · rw [hr] at h
      simp at h
    · rw [hr] at h
      exact hf a hr p h

theorem persistsPred_emit {P : PersistCall → Prop} (e : Ev) :
    PersistsPred P (emit e) := by
  intro p hp
  simp [emit] at hp

theorem persistsPred_emitChunks {P : PersistCall → Prop} (mk : String → Ev)
    (chunks : List String) : PersistsPred P (emitChunks mk chunks) := by
  intro p hp
  simp [emitChunks, emitAll] at hp

theorem persistsPred_pure {P : PersistCall → Prop} {α : Type} (a : α) :
    PersistsPred P (SM.pure a) := by
  intro p hp
  simp [SM.pure] at hp

theorem persistsPred_liftE {P : PersistCall → Prop} {α : Type}
    (r : Except Err α) : PersistsPred P (liftE r) := by
  intro p hp
  simp [liftE] at hp

theorem persistsPred_record {P : PersistCall → Prop} {p : PersistCall}
    (h : P p) : PersistsPred P (recordPersist p) := by
  intro q hq
  simp [recordPersist] at hq
  rw [hq]
  exact h

theorem persistsPred_attempt {P : PersistCall → Prop} {m : SM Unit}
    (h : PersistsPred P m) : PersistsPred P (SM.attempt m) := h

theorem persistsPred_ackPhase {P : PersistCall → Prop}
    (r : Option (Except Err String)) : PersistsPred P (ackPhase r) := by
  unfold ackPhase
  split
  · exact persistsPred_pure _
  · exact persistsPred_pure _
  · split
    · exact persistsPred_emit _
    · exact persistsPred_pure _

theorem persistsPred_thinkBlock {P : PersistCall → Prop} (env : Env)
    (step : PlanStep) (g : String) : PersistsPred P (thinkBlock env step g) := by
  unfold thinkBlock
  split
  · exact persistsPred_bind (persistsPred_liftE _)
      (fun chunks _ => persistsPred_emitChunks _ _)
  · exact persistsPred_pure _

theorem persistsPred_planPhase {P : PersistCall → Prop} (env : Env) (b : Bool) :
    PersistsPred P (planPhase env b) := by
  unfold planPhase
  refine persistsPred_bind (persistsPred_emit _) (fun _ _ => ?_)
  refine persistsPred_bind (persistsPred_liftE _) (fun steps _ => ?_)
  exact persistsPred_bind (persistsPred_emit _) (fun _ _ => persistsPred_pure _)

theorem persistsPred_stepLoop {P : PersistCall → Prop} (env : Env) :
    ∀ (steps : List PlanStep) (preQ : Option String) (g : String)
      (aps : List RetrievedPaper) (cps : List String),
      PersistsPred P (stepLoop env steps preQ g aps cps) := by
  intro steps
  induction steps with
  | nil =>
    intro preQ g aps cps
    exact persistsPred_pure _
  | cons step rest ih =>
    intro preQ g aps cps
    refine persistsPred_bind (persistsPred_emit _) (fun _ _ => ?_)
    split
    · refine persistsPred_bind ?_ (fun _ _ => ?_)
      · split
        · exact persistsPred_emit _
        · exact persistsPred_pure _
      · refine persistsPred_bind (persistsPred_liftE _) (fun out _ => ?_)
        refine persistsPred_bind ?_ (fun _ _ => ?_)
        · split
          · exact persistsPred_emit _
          · exact persistsPred_pure _
        · refine persistsPred_bind (persistsPred_emit _) (fun _ _ => ?_)
          refine persistsPred_bind (persistsPred_emit _) (fun _ _ => ?_)
          refine persistsPred_bind (persistsPred_thinkBlock env step _)
            (fun _ _ => ?_)
          refine persistsPred_bind (persistsPred_emit _) (fun _ _ => ?_)
          exact ih none _ _ _
    · refine persistsPred_bind (persistsPred_thinkBlock env step g)
        (fun _ _ => ?_)
      refine persistsPred_bind (persistsPred_emit _) (fun _ _ => ?_)
      exact ih preQ g aps cps

theorem persistsPred_gapInner {P : PersistCall → Prop} (env : Env)
    (cctx : String) (up : List RetrievedPaper) (seen : List String)
    (gr : Except Err (String × String)) :
    PersistsPred P (gapInner env cctx up seen gr) := by
  unfold gapInner
  refine persistsPred_bind (persistsPred_liftE _) (fun vr _ => ?_)
  split
  · refine persistsPred_bind (persistsPred_emit _) (fun _ _ => ?_)
    refine persistsPred_bind (persistsPred_liftE _) (fun er _ => ?_)
    refine persistsPred_bind (persistsPred_emit _) (fun _ _ => ?_)
    refine persistsPred_bind (persistsPred_liftE _) (fun rr _ => ?_)
    exact persistsPred_bind (persistsPred_emitChunks _ _)
      (fun _ _ => persistsPred_emit _)
  · exact persistsPred_pure _

/-- Every persistence call of the answer phase carries exactly the
`pre_generated_query` value it was handed. -/
theorem persistsPred_answerPhase (env : Env) (aps : List RetrievedPaper)
    (cps : List String) (preQ : Option String) :
    PersistsPred (fun p => p.search_query = preQ)
      (answerPhase env aps cps preQ) := by
  unfold answerPhase
  refine persistsPred_bind (persistsPred_emit _) (fun _ _ => ?_)
  refine persistsPred_bind (persistsPred_liftE _) (fun r _ => ?_)
  refine persistsPred_bind (persistsPred_emitChunks _ _) (fun _ _ => ?_)
  refine persistsPred_bind (persistsPred_emit _) (fun _ _ => ?_)
  refine persistsPred_bind ?_ (fun _ _ => ?_)
  · split
    · exact persistsPred_bind (persistsPred_record rfl)
        (fun _ _ => persistsPred_liftE _)
    · exact persistsPred_pure _
  · refine persistsPred_bind (persistsPred_emit _) (fun _ _ => ?_)
    refine persistsPred_bind ?_ (fun _ _ => ?_)
    · split
      · exact persistsPred_attempt (persistsPred_gapInner env _ _ _ _)
      · exact persistsPred_pure _
    · refine persistsPred_bind ?_ (fun _ _ => ?_)
      · split
        · exact persistsPred_emit _
        · exact persistsPred_pure _
      · split
        · exact persistsPred_emit _
        · exact persistsPred_pure _

/-- Every persistence call of the general branch carries
`search_query = None`. -/
theorem persistsPred_generalPhase (env : Env) :
    PersistsPred (fun p => p.search_query = none) (generalPhase env) := by
  unfold generalPhase
  refine persistsPred_bind (persistsPred_emit _) (fun _ _ => ?_)
  refine persistsPred_bind (persistsPred_liftE _) (fun r _ => ?_)
  refine persistsPred_bind (persistsPred_emitChunks _ _) (fun _ _ => ?_)
  refine persistsPred_bind (persistsPred_emit _) (fun _ _ => ?_)
  refine persistsPred_bind ?_ (fun _ _ => ?_)
  · split
    · exact persistsPred_bind (persistsPred_record rfl)
        (fun _ _ => persistsPred_liftE _)
    · exact persistsPred_pure _
  · split
    · exact persistsPred_emit _
    · exact persistsPred_pure _

/-- Once `pre_generated_query` is `None` at loop entry it is still `None`
when the loop finishes. -/
theorem stepLoop_result_none (env : Env) :
    ∀ (steps : List PlanStep) (g : String) (aps : List RetrievedPaper)
      (cps : List String)
      (res : List RetrievedPaper × List String × Option String),
      (stepLoop env steps none g aps cps).result = .ok res →
      res.2.2 = none := by
  intro steps
  induction steps with
  | nil =>
    intro g aps cps res h
    simp only [stepLoop, SM.pure] at h
    cases h
    rfl
  | cons step rest ih =>
    intro g aps cps res h
    by_cases hs : step.needs_search = true
    · rcases hex : (_execute_search_step env.question env.retrieve
          (if env.queryGenRes.isSome then some (env.freshQueryRes step.id)
           else none)
          none env.reformRes).2 with e | out
      · simp [stepLoop, hs, SM.result_bind, result_emit, result_liftE,
          result_pure, hex] at h
      · rcases hoq : out.originalQuery with _ | oq <;>
          rcases hth : (thinkBlock env step
            (_paper_summary (aps ++ out.papers))).result with e | u <;>
          simp [stepLoop, hs, SM.result_bind, result_emit, result_liftE,
            result_pure, hex, hoq, hth] at h <;>
          exact ih _ _ _ _ h
    · rcases hth : (thinkBlock env step g).result with e | u <;>
        simp [stepLoop, hs, SM.result_bind, result_emit, result_liftE,
          result_pure, hth] at h <;>
        exact ih _ _ _ _ h

/-- If any executed step performs a search, the loop finishes with
`pre_generated_query = None` (`streaming.py` 432 clears it). -/
theorem stepLoop_clears_preQ (env : Env) :
    ∀ (steps : List PlanStep) (preQ : Option String) (g : String)
      (aps : List RetrievedPaper) (cps : List String)
      (res : List RetrievedPaper × List String × Option String),
      (stepLoop env steps preQ g aps cps).result = .ok res →
      (∃ s ∈ steps, s.needs_search = true) → res.2.2 = none := by
  intro steps
  induction steps with
  | nil =>
    intro preQ g aps cps res h hex
    rcases hex with ⟨s, hs, -⟩
    simp at hs
  | cons step rest ih =>
    intro preQ g aps cps res h hex
    by_cases hs : step.needs_search = true
    · rcases preQ with _ | q
      · rcases hexe : (_execute_search_step env.question env.retrieve
            (if env.queryGenRes.isSome then some (env.freshQueryRes step.id)
             else none)
            none env.reformRes).2 with e | out
        · simp [stepLoop, hs, SM.result_bind, result_emit, result_liftE,
            result_pure, hexe] at h
        · rcases hoq : out.originalQuery with _ | oq <;>
            rcases hth : (thinkBlock env step
              (_paper_summary (aps ++ out.papers))).result with e | u <;>
            simp [stepLoop, hs, SM.result_bind, result_emit, result_liftE,
              result_pure, hexe, hoq, hth] at h <;>
            exact stepLoop_result_none env rest _ _ _ _ h
      · rcases hexe : (_execute_search_step env.question env.retrieve
            (if env.queryGenRes.isSome then some (env.freshQueryRes step.id)
             else none)
            (some q) env.reformRes).2 with e | out
        · simp [stepLoop, hs, SM.result_bind, result_emit, result_liftE,
            result_pure, hexe] at h
        · rcases hoq : out.originalQuery with _ | oq <;>
            rcases hth : (thinkBlock env step
              (_paper_summary (aps ++ out.papers))).result with e | u <;>
            simp [stepLoop, hs, SM.result_bind, result_emit, result_liftE,
              result_pure, hexe, hoq, hth] at h <;>
            exact stepLoop_result_none env rest _ _ _ _ h
    · rcases hex with ⟨s, hsmem, hsearch⟩
      rcases List.mem_cons.1 hsmem with rfl | hmem'
      · exact absurd hsearch hs
      · rcases hth : (thinkBlock env step g).result with e | u <;>
          simp [stepLoop, hs, SM.result_bind, result_emit, result_liftE,
            result_pure, hth] at h <;>
          exact ih _ _ _ _ _ h ⟨s, hmem', hsearch⟩

theorem planPhase_result (env : Env) (b : Bool) :
    (planPhase env b).result = chosenPlan env b := by
  unfold planPhase
  rcases hc : chosenPlan env b with e | steps <;>
    simp [SM.result_bind, result_emit, result_liftE, result_pure, hc]

theorem stream_persists_eq (env : Env) :
    (stream_dspy_response env).2 = (streamBody env).persists := by
  rw [stream_dspy_response_eq]
  rcases (streamBody env).result with e | a <;> rfl

/-- **C10.** If the plan chosen for the session contains at least one search
step, then every turn handed to the persistence callback carries
`search_query = None`: the pre-generated query variable is cleared by the
first search step, and it is that (now-cleared) variable — not the query
actually used for retrieval — that `on_complete` receives. -/
theorem persisted_search_query_none (env : Env) (steps : List PlanStep)
    (hplan : chosenPlan env true = .ok steps)
    (hsearch : ∃ s ∈ steps, s.needs_search = true) :
    ∀ p ∈ (stream_dspy_response env).2, p.search_query = none := by
  have hmain : PersistsPred (fun p => p.search_query = none) (streamBody env) := by
    unfold streamBody
    refine persistsPred_bind (persistsPred_emit _) (fun _ _ => ?_)
    refine persistsPred_bind (persistsPred_emit _) (fun _ _ => ?_)
    refine persistsPred_bind (persistsPred_liftE _) (fun isResearch _ => ?_)
    refine persistsPred_bind (persistsPred_emit _) (fun _ _ => ?_)
    split
    · refine persistsPred_bind (persistsPred_ackPhase _) (fun _ _ => ?_)
      unfold researchPhase
      refine persistsPred_bind (persistsPred_liftE _) (fun preQ _ => ?_)
      refine persistsPred_bind (persistsPred_planPhase env true)
        (fun steps0 hsteps0 => ?_)
      have hs0 : steps0 = steps := by
        rw [planPhase_result, hplan] at hsteps0
        exact (Except.ok.inj hsteps0).symm
      subst hs0
      refine persistsPred_bind (persistsPred_stepLoop env steps0 preQ _ [] [])
        (fun st hst => ?_)
      have hnone : st.2.2 = none :=
        stepLoop_clears_preQ env steps0 preQ _ [] [] st hst hsearch
      intro p hp
      have := persistsPred_answerPhase env st.1 st.2.1 st.2.2 p hp
      rw [this, hnone]
    · exact persistsPred_generalPhase env
  intro p hp
  rw [stream_persists_eq] at hp
  exact hmain p hp

/-- **C10 (witness).** In the concrete research run above, the first plan
step searched with the pre-generated query, and the persisted turn carries
`search_query = None`. -/
theorem persisted_search_query_none_witness :
    c10Persist ∈ (stream_dspy_response envC10).2 ∧
    c10Persist.search_query = none :=
  ⟨by decide,
   persisted_search_query_none envC10 (default_plan true) rfl
     ⟨⟨0, "Searching relevant papers",
        "Find academic papers relevant to the question", true⟩,
      by decide, rfl⟩
     c10Persist (by decide)⟩

/-- **C5 (counterexample).** When the intent-classification sub-call raises,
the orchestrator does not treat the question as research and continue: the
emitted stream is exactly thinking + classifying status + a terminal error
event + `[DONE]` — no plan, step, answer or done event, and no persistence
call.  The session aborts. -/
theorem intent_failure_counterexample :
    (stream_dspy_response envC5).1 =
      [Ev.simpleThinking,
       Ev.status "classifying" "Understanding your question...",
       Ev.errorEv "classifier down", Ev.doneSentinel] ∧
    (stream_dspy_response envC5).2 = [] := by
  constructor
  · rfl
  · rfl

/-- **C5 (amended).** The research default applies only when no classifier
is configured (`is_research = True` is the initial value); when the
classifier raises, the exception propagates to the orchestrator boundary,
which emits a single terminal `error` event followed by `[DONE]` and aborts
the session — it falls back neither to the research nor to the general
path. -/
theorem intent_failure_amended (env : Env) (e : Err) :
    (env.intentRes = some (.error e) →
      (stream_dspy_response env).1 =
        [Ev.simpleThinking,
         Ev.status "classifying" "Understanding your question...",
         Ev.errorEv e, Ev.doneSentinel] ∧
      (stream_dspy_response env).2 = []) ∧
    (env.intentRes = none → intentResearch env.intentRes = .ok true) := by
  constructor
  · intro h
    have hb : streamBody env =
        ⟨[Ev.simpleThinking,
          Ev.status "classifying" "Understanding your question..."], [],
         .error e⟩ := by
      unfold streamBody
      rw [h]
      rfl
    constructor
    · rw [stream_dspy_response_eq, hb]
      rfl
    · rw [stream_dspy_response_eq, hb]
  · intro h
    rw [h]
    rfl

/-- **C5 (amended, witness).** Both halves instantiated: the concrete
failing-classifier run aborts with the error event, and with no classifier
configured the default is research. -/
theorem intent_failure_amended_witness :
    ((stream_dspy_response envC5).1 =
        [Ev.simpleThinking,
         Ev.status "classifying" "Understanding your question...",
         Ev.errorEv "classifier down", Ev.doneSentinel] ∧
      (stream_dspy_response envC5).2 = []) ∧
    intentResearch envC5b.intentRes = .ok true :=
  ⟨(intent_failure_amended envC5 "classifier down").1 rfl,
   (intent_failure_amended envC5b "x").2 rfl⟩

end OpenTA
